import Mathlib

/-!
Verification of the instrumented store (`0x02-redis_basic/exercise.py`) and
the read-through web cache (`0x02-redis_basic/web.py`).

The external key-value store (Redis) is modelled as an explicit state:
string values live in `kv` (together with an optional expiration deadline,
set by SETEX), list values live in `lists`, and `now` is the current time
used to judge expiration.  Redis keeps every stored scalar as a byte
string; a counter touched by INCR is held with an integer representation,
so `RVal` distinguishes the two encodings and `RVal.bytesOf` is the byte
string a client GET observes.  Byte strings are modelled as `String`.

Python values handed to / returned from the cache are `PyVal` (text,
bytes, integer, float); a float is carried as its decimal representation,
which is also exactly what the store client sends on the wire.  Python
exceptions raised by the code under verification are `PyErr`.
-/

/-- A Python scalar value: text, binary, integer, or floating-point.
A float is represented by its decimal text form. -/
inductive PyVal where
  | vstr (s : String)
  | vbytes (b : String)
  | vint (n : Int)
  | vfloat (r : String)
deriving DecidableEq, Repr

/-- A Python exception class, as far as the modelled code can raise one:
`attributeError` for `None.decode`, `typeError` for `int(None)`,
`valueError` for `int` on a non-numeric string. -/
inductive PyErr where
  | attributeError
  | typeError
  | valueError
deriving DecidableEq, Repr

deriving instance DecidableEq for Except

/-- A value held by the store: either a plain byte string or the integer
encoding produced by INCR. -/
inductive RVal where
  | bytes (b : String)
  | int (n : Int)
deriving DecidableEq, Repr

/-- The byte string a client GET observes for a stored value. -/
def RVal.bytesOf : RVal → String
  | RVal.bytes b => b
  | RVal.int n => toString n

/-- One decimal digit, as parsed by `int()` and by INCR. -/
def decDigit (c : Char) : Option Nat :=
  if 48 ≤ c.toNat ∧ c.toNat ≤ 57 then some (c.toNat - 48) else none

/-- Accumulate decimal digits left to right; fails on a non-digit. -/
def decDigitsAux : List Char → Nat → Option Nat
  | [], acc => some acc
  | c :: cs, acc =>
    match decDigit c with
    | some d => decDigitsAux cs (10 * acc + d)
    | none => none

/-- Parse a non-empty string of decimal digits. -/
def parseNatStr : List Char → Option Nat
  | [] => none
  | l => decDigitsAux l 0

/-- Parse an optionally minus-signed decimal integer, as Python `int()`
and Redis INCR do on the byte strings arising in this development. -/
def parseIntStr (s : String) : Option Int :=
  match s.data with
  | [] => none
  | c :: cs =>
    if c = Char.ofNat 45 then (parseNatStr cs).map (fun n => -(n : Int))
    else (parseNatStr (c :: cs)).map (fun n => (n : Int))

/-- The state of one Redis database: string keys (with optional expiry
deadline), list keys, and the current time. -/
structure RedisState where
  kv : String → Option (RVal × Option Nat)
  lists : String → List String
  now : Nat

/-- The empty database at time zero. -/
def RedisState.empty : RedisState :=
  { kv := fun _ => none, lists := fun _ => [], now := 0 }

/-- GET: the stored value, or absent when the key is unknown or its
expiry deadline has passed. -/
def RedisState.read (st : RedisState) (key : String) : Option RVal :=
  match st.kv key with
  | none => none
  | some (v, none) => some v
  | some (v, some d) => if st.now < d then some v else none

/-- SET: store a value with no expiry (SET clears any previous TTL). -/
def RedisState.set (st : RedisState) (key : String) (v : RVal) : RedisState :=
  { st with kv := fun k => if k = key then some (v, none) else st.kv k }

/-- SETEX: store a value that expires `ttl` time units from now. -/
def RedisState.setex (st : RedisState) (key : String) (ttl : Nat) (v : RVal) : RedisState :=
  { st with kv := fun k => if k = key then some (v, some (st.now + ttl)) else st.kv k }

/-- INCR: parse the current value as an integer (absent counts as 0),
store its successor in integer encoding; the TTL of a live entry is
kept, an expired or absent key gets a fresh persistent entry. -/
def RedisState.incr (st : RedisState) (key : String) : RedisState :=
  let cur : Int :=
    match st.read key with
    | some (RVal.int n) => n
    | some (RVal.bytes s) => (parseIntStr s).getD 0
    | none => 0
  let exp : Option Nat :=
    match st.kv key, st.read key with
    | some (_, e), some _ => e
    | _, _ => none
  { st with kv := fun k => if k = key then some (RVal.int (cur + 1), exp) else st.kv k }

/-- RPUSH: append one element to a list key. -/
def RedisState.rpush (st : RedisState) (key : String) (s : String) : RedisState :=
  { st with lists := fun k => if k = key then st.lists k ++ [s] else st.lists k }

/-- FLUSHDB: remove every key of the database. -/
def RedisState.flushdb (st : RedisState) : RedisState :=
  { kv := fun _ => none, lists := fun _ => [], now := st.now }

/-- Let `t` time units pass. -/
def RedisState.advance (st : RedisState) (t : Nat) : RedisState :=
  { st with now := st.now + t }

/-- The integer value of a counter key: the stored integer, a stored
digit string parsed, or 0 when the key is absent or expired. -/
def counterVal (st : RedisState) (key : String) : Int :=
  match st.read key with
  | some (RVal.int n) => n
  | some (RVal.bytes s) => (parseIntStr s).getD 0
  | none => 0

/-!  The instrumented store of `exercise.py`.  A `Cache` owns one Redis
connection plus the source of fresh keys: `str(uuid4())` is modelled by
an infinite supply of pairwise distinct keys `uuid-0, uuid-1, ...`,
`keySupply` being the index of the next one. -/

/-- The state of one `Cache` instance: its Redis connection and the
index of the next fresh uuid key. -/
structure CacheState where
  redis : RedisState
  keySupply : Nat

/-- The key `str(uuid4())` returns for the `n`-th call, modelled as a
distinct name outside the `Cache.*` counter namespace. -/
def freshKey (n : Nat) : String := "uuid-" ++ toString n

/-- Construction of a `Cache`: `__init__` connects to the database
holding `prior` and immediately calls `flushdb(True)`; `n` seeds the
uuid supply. -/
def mkCache (prior : RedisState) (n : Nat) : CacheState :=
  { redis := RedisState.flushdb prior, keySupply := n }

/-- The byte string the Redis client sends for a Python scalar passed
to SET: text is utf-8 encoded, bytes pass through, numbers are written
in decimal. -/
def redisEncode : PyVal → String
  | PyVal.vstr s => s
  | PyVal.vbytes b => b
  | PyVal.vint n => toString n
  | PyVal.vfloat r => r

/-- A single apostrophe, the quote character Python repr puts around a
string. -/
def pyQuote : String := String.singleton (Char.ofNat 39)

/-- Python repr of a scalar, to the extent `call_history` needs it
(strings without embedded quote or escape characters). -/
def pyRepr : PyVal → String
  | PyVal.vstr s => pyQuote ++ s ++ pyQuote
  | PyVal.vbytes b => "b" ++ pyQuote ++ b ++ pyQuote
  | PyVal.vint n => toString n
  | PyVal.vfloat r => r

/-- The argument preprocessing of `call_history`: a bytes argument is
decoded to text, any other argument is kept. -/
def decodeArg : PyVal → PyVal
  | PyVal.vbytes b => PyVal.vstr b
  | v => v

/-- The input record `call_history` pushes for the one-argument call
`store(data)`: `str(tuple([...]))` of the decoded argument. -/
def histInput (data : PyVal) : String :=
  "(" ++ pyRepr (decodeArg data) ++ ",)"

/-- Python `str()` of an optional scalar, as an f-string interpolates it. -/
def pyStr : Option PyVal → String
  | none => "None"
  | some (PyVal.vstr s) => s
  | some (PyVal.vbytes b) => "b" ++ pyQuote ++ b ++ pyQuote
  | some (PyVal.vint n) => toString n
  | some (PyVal.vfloat r) => r

/-- `Cache.store(data)` with its decorators, outermost first:
`call_history` pushes the input record, `count_calls` increments the
counter `Cache.store`, the body stores the data under a fresh uuid key
and returns that key, and `call_history` finally pushes the key to the
output list. -/
def Cache.store (st : CacheState) (data : PyVal) : String × CacheState :=
  let r1 := st.redis.rpush "Cache.store:inputs" (histInput data)
  let r2 := r1.incr "Cache.store"
  let key := freshKey st.keySupply
  let r3 := r2.set key (RVal.bytes (redisEncode data))
  let r4 := r3.rpush "Cache.store:outputs" key
  (key, { redis := r4, keySupply := st.keySupply + 1 })

/-- `Cache.get(key, fn)`: `count_calls` increments the counter
`Cache.get`, the body reads the raw bytes (None when absent) and
returns them unchanged, or hands them to `fn` when one is given. -/
def Cache.get (st : CacheState) (key : String)
    (fn : Option (Option String → Except PyErr (Option PyVal))) :
    Except PyErr (Option PyVal) × CacheState :=
  let r1 := st.redis.incr "Cache.get"
  let data := (r1.read key).map RVal.bytesOf
  let res :=
    match fn with
    | some f => f data
    | none => Except.ok (data.map PyVal.vbytes)
  (res, { st with redis := r1 })

/-- The transform `lambda x: x.decode(...)` of `Cache.get_str`:
decoding `None` raises AttributeError. -/
def decodeUtf8 : Option String → Except PyErr (Option PyVal)
  | none => Except.error PyErr.attributeError
  | some b => Except.ok (some (PyVal.vstr b))

/-- The transform `lambda x: int(x)` of `Cache.get_int`: `int(None)`
raises TypeError, a non-numeric byte string raises ValueError. -/
def toIntFn : Option String → Except PyErr (Option PyVal)
  | none => Except.error PyErr.typeError
  | some b =>
    match parseIntStr b with
    | some n => Except.ok (some (PyVal.vint n))
    | none => Except.error PyErr.valueError

/-- `Cache.get_str(key)`: its own `count_calls` increments the counter
`Cache.get_str`, then it delegates to the decorated `Cache.get`. -/
def Cache.get_str (st : CacheState) (key : String) :
    Except PyErr (Option PyVal) × CacheState :=
  let r1 := st.redis.incr "Cache.get_str"
  Cache.get { st with redis := r1 } key (some decodeUtf8)

/-- `Cache.get_int(key)`: its own `count_calls` increments the counter
`Cache.get_int`, then it delegates to the decorated `Cache.get`. -/
def Cache.get_int (st : CacheState) (key : String) :
    Except PyErr (Option PyVal) × CacheState :=
  let r1 := st.redis.incr "Cache.get_int"
  Cache.get { st with redis := r1 } key (some toIntFn)

/-- `replay(cache.store)`: read the displayed count through the
decorated `get_str`, then print one line per recorded call, pairing
the input and output lists.  The returned list collects the printed
lines; a raised exception propagates as `Except.error`. -/
def replay_store (st : CacheState) : Except PyErr (List String) × CacheState :=
  let r := Cache.get_str st "Cache.store"
  match r.1 with
  | Except.error e => (Except.error e, r.2)
  | Except.ok v =>
    let header := "Cache.store was called " ++ pyStr v ++ " times:"
    let ins := r.2.redis.lists "Cache.store:inputs"
    let outs := r.2.redis.lists "Cache.store:outputs"
    let lines := (ins.zip outs).map (fun p => "Cache.store(*" ++ p.1 ++ ") -> " ++ p.2)
    (Except.ok (header :: lines), r.2)

/-- `n` successive calls `store(a)` for `a` in `as`, collecting the
returned keys in order. -/
def storeMany (st : CacheState) : List PyVal → List String × CacheState
  | [] => ([], st)
  | a :: rest =>
    let r := Cache.store st a
    let rs := storeMany r.2 rest
    (r.1 :: rs.1, rs.2)

/-!  The read-through web cache of `web.py`.  `get_page` is the
composition `cache(10)(count_calls(raw))`, the `cache` decorator being
outermost.  The underlying HTTP fetch `requests.get(url).text` is an
explicit parameter `fetch : String → String`.  A call returns the
Python value handed back to the caller, the Redis state after the
call, and the number of underlying fetches the call performed (0 or
1), which instruments the verification without changing behavior. -/

/-- Python truthiness of an optional byte string: `None` and the empty
byte string are falsy. -/
def truthy : Option String → Bool
  | none => false
  | some s => !(s == "")

/-- The fixed expiration window `@cache(10)` passes to the decorator. -/
def webCacheTime : Nat := 10

/-- The body run when `not page`: the inner `count_calls` wrapper
increments `count:url`, the raw body fetches the page, and the cache
wrapper stores the text under `cache:url` with the fixed expiry. -/
def get_page_fetch (fetch : String → String) (st : RedisState) (url : String) :
    PyVal × RedisState × Nat :=
  let r1 := st.incr ("count:" ++ url)
  let body := fetch url
  let r2 := r1.setex ("cache:" ++ url) webCacheTime (RVal.bytes body)
  (PyVal.vstr body, r2, 1)

/-- `get_page(url)`: the outer cache wrapper reads `cache:url`; a
truthy cached value is returned as the raw bytes without running the
inner wrapper, otherwise the fetch branch runs and the fresh text is
returned. -/
def get_page (fetch : String → String) (st : RedisState) (url : String) :
    PyVal × RedisState × Nat :=
  let page := (st.read ("cache:" ++ url)).map RVal.bytesOf
  match page with
  | some p =>
    if p = "" then get_page_fetch fetch st url
    else (PyVal.vbytes p, st, 0)
  | none => get_page_fetch fetch st url

/-- Invariant tracked through repeated calls to `store`: the counter key
`Cache.store` is either still absent (count 0) or holds the integer
encoding of the count, with no expiry. -/
def ctrIs (st : RedisState) (j : Nat) : Prop :=
  (j = 0 ∧ st.kv "Cache.store" = none) ∨ st.kv "Cache.store" = some (RVal.int j, none)

/-!  Key-distinctness infrastructure: uuid keys never collide with the
`Cache.*` counter keys, and the `cache:`/`count:` namespaces of the web
cache never collide with each other. -/

theorem strData_append (a b : String) : (a ++ b).data = a.data ++ b.data := by
  cases a; cases b; rfl

theorem str_ne_of_head_ne (x y : String) (h : x.data.head? ≠ y.data.head?) : x ≠ y := by
  intro e
  exact h (by rw [e])

theorem str_ne_of_get1_ne (x y : String) (h : x.data.get? 1 ≠ y.data.get? 1) : x ≠ y := by
  intro e
  exact h (by rw [e])

theorem freshKey_head (m : Nat) : (freshKey m).data.head? = some (Char.ofNat 117) := by
  show ("uuid-" ++ toString m).data.head? = some (Char.ofNat 117)
  rw [strData_append]
  rfl

theorem freshKey_ne (m : Nat) (k : String) (h : k.data.head? ≠ some (Char.ofNat 117)) :
    freshKey m ≠ k := by
  intro e
  exact h (by rw [← e, freshKey_head])

theorem cacheKey_get1 (u : String) : ("cache:" ++ u).data.get? 1 = some (Char.ofNat 97) := by
  rw [strData_append]
  rfl

theorem countKey_get1 (u : String) : ("count:" ++ u).data.get? 1 = some (Char.ofNat 111) := by
  rw [strData_append]
  rfl

theorem countKey_ne_cacheKey (u v : String) : "count:" ++ u ≠ "cache:" ++ v := by
  apply str_ne_of_get1_ne
  rw [countKey_get1, cacheKey_get1]
  decide

/-!  Frame lemmas for the Redis operations. -/

theorem read_eq_of_kv_eq (st st' : RedisState) (k : String)
    (hkv : st'.kv k = st.kv k) (hnow : st'.now = st.now) : st'.read k = st.read k := by
  unfold RedisState.read
  rw [hkv, hnow]

theorem counterVal_eq_of_read_eq (st st' : RedisState) (k : String)
    (h : st'.read k = st.read k) : counterVal st' k = counterVal st k := by
  unfold counterVal
  rw [h]

theorem kv_set_self (st : RedisState) (key : String) (v : RVal) :
    (st.set key v).kv key = some (v, none) := by
  simp [RedisState.set]

theorem kv_set_other (st : RedisState) (key k : String) (v : RVal) (h : k ≠ key) :
    (st.set key v).kv k = st.kv k := by
  simp [RedisState.set, h]

theorem read_set_self (st : RedisState) (key : String) (v : RVal) :
    (st.set key v).read key = some v := by
  simp [RedisState.set, RedisState.read]

theorem read_set_other (st : RedisState) (key k : String) (v : RVal) (h : k ≠ key) :
    (st.set key v).read k = st.read k := by
  apply read_eq_of_kv_eq
  · exact kv_set_other st key k v h
  · rfl

theorem kv_setex_other (st : RedisState) (key k : String) (ttl : Nat) (v : RVal) (h : k ≠ key) :
    (st.setex key ttl v).kv k = st.kv k := by
  simp [RedisState.setex, h]

theorem read_setex_other (st : RedisState) (key k : String) (ttl : Nat) (v : RVal) (h : k ≠ key) :
    (st.setex key ttl v).read k = st.read k := by
  apply read_eq_of_kv_eq
  · exact kv_setex_other st key k ttl v h
  · rfl

theorem kv_incr_other (st : RedisState) (key k : String) (h : k ≠ key) :
    (st.incr key).kv k = st.kv k := by
  simp [RedisState.incr, h]

theorem read_incr_other (st : RedisState) (key k : String) (h : k ≠ key) :
    (st.incr key).read k = st.read k := by
  apply read_eq_of_kv_eq
  · exact kv_incr_other st key k h
  · rfl

theorem kv_rpush (st : RedisState) (key s : String) : (st.rpush key s).kv = st.kv := rfl

theorem read_rpush (st : RedisState) (key s k : String) :
    (st.rpush key s).read k = st.read k := rfl

theorem lists_set (st : RedisState) (key : String) (v : RVal) :
    (st.set key v).lists = st.lists := rfl

theorem lists_incr (st : RedisState) (key : String) :
    (st.incr key).lists = st.lists := rfl

theorem lists_rpush_self (st : RedisState) (key s : String) :
    (st.rpush key s).lists key = st.lists key ++ [s] := by
  simp [RedisState.rpush]

theorem lists_rpush_other (st : RedisState) (key s k : String) (h : k ≠ key) :
    (st.rpush key s).lists k = st.lists k := by
  simp [RedisState.rpush, h]

theorem counterVal_incr_self (st : RedisState) (key : String) :
    counterVal (st.incr key) key = counterVal st key + 1 := by
  unfold counterVal RedisState.incr RedisState.read
  cases h : st.kv key with
  | none => simp [h]
  | some ve =>
    rcases ve with ⟨v, e⟩
    cases e with
    | none => cases v <;> simp [h]
    | some d =>
      by_cases hd : st.now < d
      · cases v <;> simp [h, hd]
      · cases v <;> simp [h, hd]

theorem counterVal_incr_other (st : RedisState) (key k : String) (h : k ≠ key) :
    counterVal (st.incr key) k = counterVal st k := by
  apply counterVal_eq_of_read_eq
  exact read_incr_other st key k h

/-!  The effect of one `store` call on the Redis state. -/

theorem store_key (st : CacheState) (a : PyVal) :
    (Cache.store st a).1 = freshKey st.keySupply := rfl

theorem store_keySupply (st : CacheState) (a : PyVal) :
    (Cache.store st a).2.keySupply = st.keySupply + 1 := rfl

theorem store_redis (st : CacheState) (a : PyVal) :
    (Cache.store st a).2.redis =
      (((st.redis.rpush "Cache.store:inputs" (histInput a)).incr "Cache.store").set
          (freshKey st.keySupply) (RVal.bytes (redisEncode a))).rpush
        "Cache.store:outputs" (freshKey st.keySupply) := rfl

theorem store_counter (st : CacheState) (a : PyVal) :
    counterVal (Cache.store st a).2.redis "Cache.store" =
      counterVal st.redis "Cache.store" + 1 := by
  have hfk : ("Cache.store" : String) ≠ freshKey st.keySupply :=
    (freshKey_ne st.keySupply "Cache.store" (by decide)).symm
  rw [store_redis]
  rw [counterVal_eq_of_read_eq _ _ _ (read_rpush _ _ _ _)]
  rw [counterVal_eq_of_read_eq _ _ _ (read_set_other _ _ _ _ hfk)]
  rw [counterVal_incr_self]
  rw [counterVal_eq_of_read_eq _ _ _ (read_rpush _ _ _ _)]

theorem incr_kv_self_of_ctr (st : RedisState) (j : Nat) (h : ctrIs st j) :
    (st.incr "Cache.store").kv "Cache.store" = some (RVal.int ((j : Int) + 1), none) := by
  rcases h with ⟨hj, hkv⟩ | hkv
  · subst hj
    simp [RedisState.incr, RedisState.read, hkv]
  · simp [RedisState.incr, RedisState.read, hkv]

theorem store_ctr (st : CacheState) (a : PyVal) (j : Nat) (h : ctrIs st.redis j) :
    ctrIs (Cache.store st a).2.redis (j + 1) := by
  have hfk : ("Cache.store" : String) ≠ freshKey st.keySupply :=
    (freshKey_ne st.keySupply "Cache.store" (by decide)).symm
  right
  show (Cache.store st a).2.redis.kv "Cache.store" = some (RVal.int ((j : Nat) + 1 : Nat), none)
  rw [store_redis]
  rw [show ∀ st' : RedisState, (st'.rpush "Cache.store:outputs" (freshKey st.keySupply)).kv =
    st'.kv from fun _ => rfl]
  rw [kv_set_other _ _ _ _ hfk]
  rw [incr_kv_self_of_ctr (st.redis.rpush "Cache.store:inputs" (histInput a)) j h]
  rw [Nat.cast_add_one]

theorem store_inputs (st : CacheState) (a : PyVal) :
    (Cache.store st a).2.redis.lists "Cache.store:inputs" =
      st.redis.lists "Cache.store:inputs" ++ [histInput a] := by
  rw [store_redis]
  rw [lists_rpush_other _ _ _ _ (by decide)]
  rw [lists_set, lists_incr]
  rw [lists_rpush_self]

theorem store_outputs (st : CacheState) (a : PyVal) :
    (Cache.store st a).2.redis.lists "Cache.store:outputs" =
      st.redis.lists "Cache.store:outputs" ++ [(Cache.store st a).1] := by
  rw [store_key, store_redis]
  rw [lists_rpush_self]
  rw [lists_set, lists_incr]
  rw [lists_rpush_other _ _ _ _ (by decide)]

/-!  The accumulated effect of a sequence of `store` calls. -/

theorem storeMany_counter (as : List PyVal) : ∀ st : CacheState,
    counterVal (storeMany st as).2.redis "Cache.store" =
      counterVal st.redis "Cache.store" + as.length := by
  induction as with
  | nil => intro st; simp [storeMany]
  | cons a rest ih =>
    intro st
    simp only [storeMany, List.length_cons]
    rw [ih, store_counter]
    push_cast
    ring

theorem storeMany_length (as : List PyVal) : ∀ st : CacheState,
    (storeMany st as).1.length = as.length := by
  induction as with
  | nil => intro st; rfl
  | cons a rest ih =>
    intro st
    simp only [storeMany, List.length_cons]
    rw [ih]

theorem storeMany_inputs (as : List PyVal) : ∀ st : CacheState,
    (storeMany st as).2.redis.lists "Cache.store:inputs" =
      st.redis.lists "Cache.store:inputs" ++ as.map histInput := by
  induction as with
  | nil => intro st; simp [storeMany]
  | cons a rest ih =>
    intro st
    simp only [storeMany, List.map_cons]
    rw [ih, store_inputs]
    simp

theorem storeMany_outputs (as : List PyVal) : ∀ st : CacheState,
    (storeMany st as).2.redis.lists "Cache.store:outputs" =
      st.redis.lists "Cache.store:outputs" ++ (storeMany st as).1 := by
  induction as with
  | nil => intro st; simp [storeMany]
  | cons a rest ih =>
    intro st
    simp only [storeMany]
    rw [ih, store_outputs]
    simp

theorem storeMany_ctr (as : List PyVal) : ∀ (st : CacheState) (j : Nat),
    ctrIs st.redis j → ctrIs (storeMany st as).2.redis (j + as.length) := by
  induction as with
  | nil => intro st j h; simpa [storeMany] using h
  | cons a rest ih =>
    intro st j h
    simp only [storeMany, List.length_cons]
    have := ih (Cache.store st a).2 (j + 1) (store_ctr st a j h)
    have harith : j + 1 + rest.length = j + (rest.length + 1) := by omega
    rw [harith] at this
    exact this

/-!  Claim C1.  The spec claims `get(store(v))` with no transform returns
`v` itself for every scalar `v`.  The store keeps only the byte encoding
of `v`, and `get` without a transform hands those bytes back unchanged,
so the round trip yields `v` itself exactly when `v` was a bytes value. -/

/-- C1, counterexample to the claim as stated: storing the integer 5 and
reading the key back with no transform returns the bytes `b"5"`, not the
integer 5. -/
theorem c1_counterexample :
    (Cache.get (Cache.store (mkCache RedisState.empty 0) (PyVal.vint 5)).2
        (Cache.store (mkCache RedisState.empty 0) (PyVal.vint 5)).1 none).1 ≠
      Except.ok (some (PyVal.vint 5)) := by
  decide

/-- C1 (amended): for every scalar value `v` and every cache state,
`get` on the key returned by `store(v)`, with no transform supplied,
returns the byte encoding of `v` as a bytes value; that result equals
`v` itself precisely when `v` is a bytes value. -/
theorem c1_store_get_roundtrip (st : CacheState) (v : PyVal) :
    (Cache.get (Cache.store st v).2 (Cache.store st v).1 none).1 =
      Except.ok (some (PyVal.vbytes (redisEncode v))) ∧
    (PyVal.vbytes (redisEncode v) = v ↔ ∃ b, v = PyVal.vbytes b) := by
  constructor
  · have hfk : freshKey st.keySupply ≠ "Cache.get" :=
      freshKey_ne st.keySupply "Cache.get" (by decide)
    rw [store_key]
    simp only [Cache.get]
    rw [read_incr_other _ _ _ hfk]
    rw [store_redis, read_rpush, read_set_self]
    rfl
  · cases v <;> simp [redisEncode]

/-!  Claim C4.  The spec claims absent (or expired) keys make `get`,
`get_str` and `get_int` all return an empty result rather than signal
an error.  Only `get` does: the convenience transforms are applied to
`None` and raise.  Moreover a key equal to one of the counter names is
created by the decorator itself before the lookup, so the claim can
only hold away from the counter namespace. -/

/-- C4, counterexample to the claim as stated: on a fresh cache,
`get_str` of the absent key `k` raises AttributeError instead of
returning None, and `get` of the absent key `Cache.get` returns the
bytes `b"1"` (the counter the call itself just created) instead of
None. -/
theorem c4_counterexample :
    (Cache.get_str (mkCache RedisState.empty 0) "k").1 =
      Except.error PyErr.attributeError ∧
    (Cache.get (mkCache RedisState.empty 0) "Cache.get" none).1 =
      Except.ok (some (PyVal.vbytes "1")) := by
  constructor
  · decide
  · decide

/-- C4 (amended): for every key outside the counter namespace that is
absent from (or expired in) the backing store, `get` with no transform
returns None, while `get_str` raises AttributeError and `get_int`
raises TypeError. -/
theorem c4_absent_key (st : CacheState) (key : String)
    (h1 : key ≠ "Cache.get") (h2 : key ≠ "Cache.get_str") (h3 : key ≠ "Cache.get_int")
    (h : st.redis.read key = none) :
    (Cache.get st key none).1 = Except.ok none ∧
    (Cache.get_str st key).1 = Except.error PyErr.attributeError ∧
    (Cache.get_int st key).1 = Except.error PyErr.typeError := by
  refine ⟨?_, ?_, ?_⟩
  · simp only [Cache.get]
    rw [read_incr_other _ _ _ h1, h]
    rfl
  · simp only [Cache.get_str, Cache.get]
    rw [read_incr_other _ _ _ h1, read_incr_other _ _ _ h2, h]
    rfl
  · simp only [Cache.get_int, Cache.get]
    rw [read_incr_other _ _ _ h1, read_incr_other _ _ _ h3, h]
    rfl

/-- C4 witness: the amended claim applied to the fresh cache and the
absent key `k`. -/
theorem c4_absent_key_witness :
    (("k" : String) ≠ "Cache.get" ∧ ("k" : String) ≠ "Cache.get_str" ∧
      ("k" : String) ≠ "Cache.get_int" ∧
      (mkCache RedisState.empty 0).redis.read "k" = none) ∧
    ((Cache.get (mkCache RedisState.empty 0) "k" none).1 = Except.ok none ∧
      (Cache.get_str (mkCache RedisState.empty 0) "k").1 = Except.error PyErr.attributeError ∧
      (Cache.get_int (mkCache RedisState.empty 0) "k").1 = Except.error PyErr.typeError) :=
  ⟨⟨by decide, by decide, by decide, by decide⟩,
    c4_absent_key (mkCache RedisState.empty 0) "k" (by decide) (by decide) (by decide)
      (by decide)⟩

/-!  Claim C6.  Calling `store` n times increments the counter key
`Cache.store` by exactly n: `count_calls` runs once per invocation and
nothing else in `store` touches that key. -/

/-- C6: for every starting state, a sequence of n `store` calls leaves
the call counter of `store` exactly n higher than before. -/
theorem c6_store_count (st : CacheState) (as : List PyVal) :
    counterVal (storeMany st as).2.redis "Cache.store" =
      counterVal st.redis "Cache.store" + as.length :=
  storeMany_counter as st

/-!  Claim C7.  On a key holding the raw bytes `b"123"`, `get_str`
returns the text and `get_int` the integer — unless the key is itself
one of the counter keys, which the decorators increment before the
lookup reads it back. -/

/-- C7, counterexample to the claim as stated: when the key is
`Cache.get` itself and holds `b"123"`, `get_str` first increments that
very counter and then reads `b"124"`, returning `"124"` instead of the
claimed `"123"`. -/
theorem c7_counterexample :
    (Cache.get_str (CacheState.mk (RedisState.empty.set "Cache.get" (RVal.bytes "123")) 0)
        "Cache.get").1 = Except.ok (some (PyVal.vstr "124")) := by
  decide

/-- C7 (amended): for every key outside the counter namespace whose
stored raw value is the bytes `b"123"`, `get_str` returns the text
`"123"` and `get_int` returns the integer 123. -/
theorem c7_get_str_get_int (st : CacheState) (key : String)
    (h1 : key ≠ "Cache.get") (h2 : key ≠ "Cache.get_str") (h3 : key ≠ "Cache.get_int")
    (h : (st.redis.read key).map RVal.bytesOf = some "123") :
    (Cache.get_str st key).1 = Except.ok (some (PyVal.vstr "123")) ∧
    (Cache.get_int st key).1 = Except.ok (some (PyVal.vint 123)) := by
  constructor
  · simp only [Cache.get_str, Cache.get]
    rw [read_incr_other _ _ _ h1, read_incr_other _ _ _ h2, h]
    rfl
  · simp only [Cache.get_int, Cache.get]
    rw [read_incr_other _ _ _ h1, read_incr_other _ _ _ h3, h]
    rfl

/-- C7 witness: the amended claim applied to a store holding
`b"123"` under the plain key `k`. -/
theorem c7_get_str_get_int_witness :
    (("k" : String) ≠ "Cache.get" ∧ ("k" : String) ≠ "Cache.get_str" ∧
      ("k" : String) ≠ "Cache.get_int" ∧
      (((CacheState.mk (RedisState.empty.set "k" (RVal.bytes "123")) 0).redis.read "k").map
        RVal.bytesOf = some "123")) ∧
    ((Cache.get_str (CacheState.mk (RedisState.empty.set "k" (RVal.bytes "123")) 0) "k").1 =
        Except.ok (some (PyVal.vstr "123")) ∧
      (Cache.get_int (CacheState.mk (RedisState.empty.set "k" (RVal.bytes "123")) 0) "k").1 =
        Except.ok (some (PyVal.vint 123))) :=
  ⟨⟨by decide, by decide, by decide, by decide⟩,
    c7_get_str_get_int (CacheState.mk (RedisState.empty.set "k" (RVal.bytes "123")) 0) "k"
      (by decide) (by decide) (by decide) (by decide)⟩

/-!  Claim C8.  `Cache.__init__` calls `flushdb(True)`: whatever the
database held before construction, afterwards every string key and
every list key is absent. -/

/-- C8: constructing a `Cache` on top of any prior database state
leaves every key absent: no counter, history list or record survives
initialization. -/
theorem c8_init_clears (prior : RedisState) (n : Nat) (key : String) :
    (mkCache prior n).redis.kv key = none ∧ (mkCache prior n).redis.lists key = [] :=
  ⟨rfl, rfl⟩

/-!  Claim C9.  `replay` reads the displayed count through the decorated
`get_str`, which itself delegates to the decorated `get`; both
decorators run, so replaying mutates the two counters it passes
through — on the success path and on the error path alike. -/

/-- C9: every call to `replay(cache.store)` increments the call
counters of `get_str` and of `get` by exactly 1 each. -/
theorem c9_replay_increments (st : CacheState) :
    counterVal (replay_store st).2.redis "Cache.get_str" =
      counterVal st.redis "Cache.get_str" + 1 ∧
    counterVal (replay_store st).2.redis "Cache.get" =
      counterVal st.redis "Cache.get" + 1 := by
  have hstate : (replay_store st).2 = (Cache.get_str st "Cache.store").2 := by
    unfold replay_store
    cases h : (Cache.get_str st "Cache.store").1 <;> simp [h]
  have hred : (Cache.get_str st "Cache.store").2.redis =
      (st.redis.incr "Cache.get_str").incr "Cache.get" := rfl
  rw [hstate, hred]
  constructor
  · rw [counterVal_incr_other _ _ _ (by decide)]
    exact counterVal_incr_self _ _
  · rw [counterVal_incr_self, counterVal_incr_other _ _ _ (by decide)]

/-!  Claim C5.  After k calls to `store`, `replay(cache.store)` reads
the counter through `get_str` and prints the count line followed by
one line per recorded call, in order.  When the counter is absent —
k = 0 on a fresh cache — the `get_str` read raises before anything is
printed, so the claim only holds from the first call on. -/

theorem read_of_kv_noexp (st : RedisState) (key : String) (v : RVal)
    (h : st.kv key = some (v, none)) : st.read key = some v := by
  unfold RedisState.read
  rw [h]

/-- C5, counterexample to the claim as stated: with k = 0 (a fresh
cache, no `store` call yet), `replay` raises AttributeError while
reading the absent counter, instead of printing the count and zero
history lines. -/
theorem c5_counterexample :
    (replay_store (mkCache RedisState.empty 0)).1 = Except.error PyErr.attributeError := by
  decide

/-- C5 (amended): for every k ≥ 1, after k calls to `store` on a fresh
cache with arguments a1..ak returning keys r1..rk, `replay` produces
the count line followed by exactly k history lines, in invocation
order, the i-th line showing the argument tuple of ai and the key ri. -/
theorem c5_replay_prints_history (prior : RedisState) (n : Nat) (as : List PyVal)
    (h : as ≠ []) :
    (storeMany (mkCache prior n) as).1.length = as.length ∧
    (replay_store (storeMany (mkCache prior n) as).2).1 =
      Except.ok (("Cache.store was called " ++ toString as.length ++ " times:") ::
        (as.zip (storeMany (mkCache prior n) as).1).map
          (fun p => "Cache.store(*" ++ histInput p.1 ++ ") -> " ++ p.2)) := by
  refine ⟨storeMany_length as (mkCache prior n), ?_⟩
  have hctr : ctrIs (storeMany (mkCache prior n) as).2.redis as.length := by
    have h0 : ctrIs (mkCache prior n).redis 0 := Or.inl ⟨rfl, rfl⟩
    simpa using storeMany_ctr as (mkCache prior n) 0 h0
  have hkv : (storeMany (mkCache prior n) as).2.redis.kv "Cache.store" =
      some (RVal.int as.length, none) := by
    rcases hctr with ⟨h0, _⟩ | hkv
    · exact absurd (List.length_eq_zero.mp h0) h
    · exact hkv
  have hread : ((((storeMany (mkCache prior n) as).2.redis.incr "Cache.get_str").incr
      "Cache.get").read "Cache.store") = some (RVal.int as.length) := by
    rw [read_incr_other _ _ _ (by decide), read_incr_other _ _ _ (by decide)]
    exact read_of_kv_noexp _ _ _ hkv
  have hgs : (Cache.get_str (storeMany (mkCache prior n) as).2 "Cache.store").1 =
      Except.ok (some (PyVal.vstr (toString (as.length : Int)))) := by
    simp only [Cache.get_str, Cache.get]
    rw [hread]
    rfl
  have hins : (storeMany (mkCache prior n) as).2.redis.lists "Cache.store:inputs" =
      as.map histInput := by
    rw [storeMany_inputs as (mkCache prior n)]
    rfl
  have houts : (storeMany (mkCache prior n) as).2.redis.lists "Cache.store:outputs" =
      (storeMany (mkCache prior n) as).1 := by
    rw [storeMany_outputs as (mkCache prior n)]
    rfl
  simp only [replay_store]
  rw [hgs]
  simp only []
  have hins2 : (Cache.get_str (storeMany (mkCache prior n) as).2
      "Cache.store").2.redis.lists "Cache.store:inputs" = as.map histInput := hins
  have houts2 : (Cache.get_str (storeMany (mkCache prior n) as).2
      "Cache.store").2.redis.lists "Cache.store:outputs" =
      (storeMany (mkCache prior n) as).1 := houts
  rw [hins2, houts2]
  rw [List.zip_map_left, List.map_map]
  rfl

/-- C5 witness: one `store("a")` call on a fresh cache; `replay` then
reports one call and one history line. -/
theorem c5_replay_prints_history_witness :
    ([PyVal.vstr "a"] ≠ ([] : List PyVal)) ∧
    ((storeMany (mkCache RedisState.empty 0) [PyVal.vstr "a"]).1.length =
        [PyVal.vstr "a"].length ∧
      (replay_store (storeMany (mkCache RedisState.empty 0) [PyVal.vstr "a"]).2).1 =
        Except.ok (("Cache.store was called " ++ toString [PyVal.vstr "a"].length ++
            " times:") ::
          ([PyVal.vstr "a"].zip
            (storeMany (mkCache RedisState.empty 0) [PyVal.vstr "a"]).1).map
            (fun p => "Cache.store(*" ++ histInput p.1 ++ ") -> " ++ p.2))) :=
  ⟨by decide, c5_replay_prints_history RedisState.empty 0 [PyVal.vstr "a"] (by decide)⟩

/-!  Helper lemmas for the web cache: the two branches of `get_page`
and the cache entry the fetch branch leaves behind. -/

theorem get_page_hit (fetch : String → String) (st : RedisState) (url : String) (p : String)
    (hp : (st.read ("cache:" ++ url)).map RVal.bytesOf = some p) (hne : p ≠ "") :
    get_page fetch st url = (PyVal.vbytes p, st, 0) := by
  unfold get_page
  rw [hp]
  simp [hne]

theorem get_page_miss (fetch : String → String) (st : RedisState) (url : String)
    (hmiss : truthy ((st.read ("cache:" ++ url)).map RVal.bytesOf) = false) :
    get_page fetch st url = get_page_fetch fetch st url := by
  unfold get_page
  cases hp : (st.read ("cache:" ++ url)).map RVal.bytesOf with
  | none => rfl
  | some p =>
    rw [hp] at hmiss
    simp [truthy] at hmiss
    simp [hmiss]

theorem get_page_fetches_le_one (fetch : String → String) (st : RedisState) (url : String) :
    (get_page fetch st url).2.2 ≤ 1 := by
  unfold get_page get_page_fetch
  cases hp : (st.read ("cache:" ++ url)).map RVal.bytesOf with
  | none => simp
  | some p => by_cases hpe : p = "" <;> simp [hpe, get_page_fetch]

theorem fetch_branch_kv (fetch : String → String) (st : RedisState) (url : String) :
    (get_page_fetch fetch st url).2.1.kv ("cache:" ++ url) =
      some (RVal.bytes (fetch url), some (st.now + webCacheTime)) := by
  simp [get_page_fetch, RedisState.setex, RedisState.incr]

/-!  Claim C2.  The spec claims every `get_page(url)` call increments
`count:url` by exactly 1, hit or miss.  In the source the `cache`
decorator is applied outside `count_calls`, so on a cache hit the
counting wrapper never runs: the counter moves only on a miss. -/

/-- C2, counterexample to the claim as stated: after a first
`get_page("u")` call has populated the cache, a second call within the
window is a hit and leaves `count:u` unchanged instead of incrementing
it by 1. -/
theorem c2_counterexample :
    ¬(counterVal (get_page (fun _ => "hello")
        ((get_page (fun _ => "hello") RedisState.empty "u").2.1) "u").2.1 ("count:" ++ "u") =
      counterVal ((get_page (fun _ => "hello") RedisState.empty "u").2.1)
        ("count:" ++ "u") + 1) := by
  decide

/-- C2 (amended): a `get_page(url)` call increments the access counter
`count:url` by exactly 1 on a cache miss (including when the cached
value is empty), and leaves it unchanged on a cache hit. -/
theorem c2_counter_policy (fetch : String → String) (st : RedisState) (url : String) :
    (truthy ((st.read ("cache:" ++ url)).map RVal.bytesOf) = true →
      counterVal (get_page fetch st url).2.1 ("count:" ++ url) =
        counterVal st ("count:" ++ url)) ∧
    (truthy ((st.read ("cache:" ++ url)).map RVal.bytesOf) = false →
      counterVal (get_page fetch st url).2.1 ("count:" ++ url) =
        counterVal st ("count:" ++ url) + 1) := by
  constructor
  · intro ht
    cases hp : (st.read ("cache:" ++ url)).map RVal.bytesOf with
    | none => rw [hp] at ht; simp [truthy] at ht
    | some p =>
      rw [hp] at ht
      have hne : p ≠ "" := by simpa [truthy] using ht
      rw [get_page_hit fetch st url p hp hne]
  · intro hf
    rw [get_page_miss fetch st url hf]
    simp only [get_page_fetch]
    rw [counterVal_eq_of_read_eq _ _ _
      (read_setex_other _ _ _ _ _ (countKey_ne_cacheKey url url))]
    exact counterVal_incr_self st ("count:" ++ url)

/-- C2 witness: the amended claim applied to the empty store, where the
first call is a miss and increments the counter. -/
theorem c2_counter_policy_witness :
    (truthy ((RedisState.empty.read ("cache:" ++ "u")).map RVal.bytesOf) = false) ∧
    counterVal (get_page (fun _ => "x") RedisState.empty "u").2.1 ("count:" ++ "u") =
      counterVal RedisState.empty ("count:" ++ "u") + 1 :=
  ⟨by decide, (c2_counter_policy (fun _ => "x") RedisState.empty "u").2 (by decide)⟩

/-!  Claim C3.  Within the 10-unit window a cached page is served
without fetching — provided it was cached at all: the `if not page`
test treats empty fetched content as absent, so an empty page is
fetched on every call.  After the window the entry has expired and the
fetch runs again. -/

/-- C3, counterexample to the claim as stated: when the fetched content
is the empty text, two immediate calls to `get_page("u")` both perform
the underlying fetch (the empty cached value is falsy), exceeding the
claimed at-most-one fetch. -/
theorem c3_counterexample :
    ¬((get_page (fun _ => "") RedisState.empty "u").2.2 +
      (get_page (fun _ => "")
        (((get_page (fun _ => "") RedisState.empty "u").2.1).advance 0) "u").2.2 ≤ 1) := by
  decide

/-- C3 (amended): provided the fetched content for the url is
non-empty, two `get_page(url)` calls separated by less than the
10-unit window perform the underlying fetch at most once; and whenever
a call did fetch, a further call after the window has elapsed fetches
again. -/
theorem c3_expiry_window (fetch : String → String) (st : RedisState) (url : String) (t : Nat) :
    (t < webCacheTime → fetch url ≠ "" →
      (get_page fetch st url).2.2 +
        (get_page fetch (((get_page fetch st url).2.1).advance t) url).2.2 ≤ 1) ∧
    (webCacheTime ≤ t → (get_page fetch st url).2.2 = 1 →
      (get_page fetch (((get_page fetch st url).2.1).advance t) url).2.2 = 1) := by
  constructor
  · intro ht hne
    cases hb : truthy ((st.read ("cache:" ++ url)).map RVal.bytesOf) with
    | true =>
      obtain ⟨p, hp⟩ : ∃ p, (st.read ("cache:" ++ url)).map RVal.bytesOf = some p := by
        cases hp : (st.read ("cache:" ++ url)).map RVal.bytesOf with
        | none => rw [hp] at hb; simp [truthy] at hb
        | some p => exact ⟨p, rfl⟩
      have hpe : p ≠ "" := by
        rw [hp] at hb
        simpa [truthy] using hb
      rw [get_page_hit fetch st url p hp hpe]
      simpa using get_page_fetches_le_one fetch (st.advance t) url
    | false =>
      rw [get_page_miss fetch st url hb]
      have hkv := fetch_branch_kv fetch st url
      have hread2 : (((get_page_fetch fetch st url).2.1).advance t).read ("cache:" ++ url) =
          some (RVal.bytes (fetch url)) := by
        unfold RedisState.read
        rw [show (((get_page_fetch fetch st url).2.1).advance t).kv ("cache:" ++ url) =
          some (RVal.bytes (fetch url), some (st.now + webCacheTime)) from hkv]
        rw [show (((get_page_fetch fetch st url).2.1).advance t).now = st.now + t from rfl]
        show (if st.now + t < st.now + webCacheTime then some (RVal.bytes (fetch url))
          else none) = some (RVal.bytes (fetch url))
        rw [if_pos (by omega)]
      rw [get_page_hit fetch _ url (fetch url) (by rw [hread2]; rfl) hne]
      simp [get_page_fetch]
  · intro ht hf1
    cases hb : truthy ((st.read ("cache:" ++ url)).map RVal.bytesOf) with
    | true =>
      obtain ⟨p, hp⟩ : ∃ p, (st.read ("cache:" ++ url)).map RVal.bytesOf = some p := by
        cases hp : (st.read ("cache:" ++ url)).map RVal.bytesOf with
        | none => rw [hp] at hb; simp [truthy] at hb
        | some p => exact ⟨p, rfl⟩
      have hpe : p ≠ "" := by
        rw [hp] at hb
        simpa [truthy] using hb
      rw [get_page_hit fetch st url p hp hpe] at hf1
      simp at hf1
    | false =>
      rw [get_page_miss fetch st url hb]
      have hkv := fetch_branch_kv fetch st url
      have hread2 : (((get_page_fetch fetch st url).2.1).advance t).read ("cache:" ++ url) =
          none := by
        unfold RedisState.read
        rw [show (((get_page_fetch fetch st url).2.1).advance t).kv ("cache:" ++ url) =
          some (RVal.bytes (fetch url), some (st.now + webCacheTime)) from hkv]
        rw [show (((get_page_fetch fetch st url).2.1).advance t).now = st.now + t from rfl]
        show (if st.now + t < st.now + webCacheTime then some (RVal.bytes (fetch url))
          else none) = none
        rw [if_neg (by omega)]
      rw [get_page_miss fetch _ url (by rw [hread2]; rfl)]
      rfl

/-- C3 witness: from the empty store with non-empty content and no time
passing between the calls, the two calls fetch at most once in total. -/
theorem c3_expiry_window_witness :
    (0 < webCacheTime ∧ (fun _ => "x") "u" ≠ "") ∧
    (get_page (fun _ => "x") RedisState.empty "u").2.2 +
      (get_page (fun _ => "x")
        (((get_page (fun _ => "x") RedisState.empty "u").2.1).advance 0) "u").2.2 ≤ 1 :=
  ⟨⟨by decide, by decide⟩,
    (c3_expiry_window (fun _ => "x") RedisState.empty "u" 0).1 (by decide) (by decide)⟩

/-!  Claim C10.  The value `get_page` returns depends on the branch
taken: a miss hands back the freshly fetched text, a hit hands back
the raw bytes read from the store, so a hit and a miss for the same
content are different Python values. -/

/-- C10: on a cache hit `get_page` returns the raw stored bytes without
fetching, on a miss it returns the fresh text after one fetch; a text
value and a bytes value are never equal, so the two calls of the
concrete run below return different values for the same content. -/
theorem c10_result_type (fetch : String → String) (st : RedisState) (url : String) :
    (∀ p, (st.read ("cache:" ++ url)).map RVal.bytesOf = some p → p ≠ "" →
      (get_page fetch st url).1 = PyVal.vbytes p ∧ (get_page fetch st url).2.2 = 0) ∧
    (truthy ((st.read ("cache:" ++ url)).map RVal.bytesOf) = false →
      (get_page fetch st url).1 = PyVal.vstr (fetch url) ∧
        (get_page fetch st url).2.2 = 1) ∧
    ((get_page (fun _ => "hello") RedisState.empty "u").1 = PyVal.vstr "hello" ∧
      (get_page (fun _ => "hello")
        ((get_page (fun _ => "hello") RedisState.empty "u").2.1) "u").1 =
          PyVal.vbytes "hello" ∧
      PyVal.vstr "hello" ≠ PyVal.vbytes "hello") := by
  refine ⟨?_, ?_, by decide⟩
  · intro p hp hpe
    rw [get_page_hit fetch st url p hp hpe]
    exact ⟨rfl, rfl⟩
  · intro hf
    rw [get_page_miss fetch st url hf]
    exact ⟨rfl, rfl⟩

/-- C10 witness: a store holding non-empty bytes under the cache key
serves a hit that returns exactly those bytes. -/
theorem c10_result_type_witness :
    (((RedisState.empty.set ("cache:" ++ "u") (RVal.bytes "hi")).read
        ("cache:" ++ "u")).map RVal.bytesOf = some "hi" ∧ ("hi" : String) ≠ "") ∧
    (get_page (fun _ => "x") (RedisState.empty.set ("cache:" ++ "u") (RVal.bytes "hi"))
        "u").1 = PyVal.vbytes "hi" :=
  ⟨⟨by decide, by decide⟩,
    ((c10_result_type (fun _ => "x")
      (RedisState.empty.set ("cache:" ++ "u") (RVal.bytes "hi")) "u").1 "hi"
      (by decide) (by decide)).1⟩
